import Mathlib

/-!
Verification of the glitter-particle animation loop of this repository.

The embedding models the two React components `GlitterParticles.js` (the
component mounted by `src/index.js`) and `App.js`.  Positions, radii and the
configuration parameters are rationals (the source uses JS numbers and only
linear arithmetic on them).  The source's calls to `Math.random()` are modelled
by a stream `rnd : ℕ → ℚ` of draws consumed in the source's evaluation order:
one draw per surviving particle (for its x coordinate), then two draws per
spawned particle (x first, then y).  The colour helper `rgbValue` re-reads
`Date.now()` on every call; it is embedded over ℝ, and the spawn loop's
per-call clock reads are modelled by a stream `clk : ℕ → ℝ` of times
(`burstFresh`/`animateFresh`).  `animate`/`burst` additionally take a
tick-constant channel closure `rgb : ℚ → ℤ`, the special case in which all
clock reads of a tick coincide (`burstFresh_eq_burst`); the colour-independent
claims are stated over that arbitrary `rgb`.
-/

namespace Glitter

/-- An (r, g, b) colour triple, as built in `animate`:
`c: { r: rgbValue(0), g: rgbValue(1/3), b: rgbValue(2/3) }`. -/
structure Color where
  r : ℤ
  g : ℤ
  b : ℤ
deriving DecidableEq, Repr, Inhabited

/-- A screen coordinate `{ x, y }` as recorded by `handleClick`. -/
structure Coord where
  x : ℚ
  y : ℚ
deriving DecidableEq, Repr, Inhabited

/-- One glitter particle `{ x, y, r, c }` (`GlitterParticles.js` lines 88-93). -/
structure Particle where
  x : ℚ
  y : ℚ
  r : ℚ
  c : Color
deriving DecidableEq, Repr, Inhabited

/-- The five numeric props `{ count, size, gravity, spread, decay }`. -/
structure Config where
  count : ℕ
  size : ℚ
  gravity : ℚ
  spread : ℚ
  decay : ℚ

/-- Component state of `GlitterParticles.js`: the `particles` array and the
pending `screenInput` (absent = `undefined`/`null`, both falsy in the source's
`if (screenInput)` test). -/
structure State where
  particles : List Particle
  screenInput : Option Coord
deriving DecidableEq, Repr

/-- The `handleClick` handler (`GlitterParticles.js` lines 29-42): record the input
coordinate, overwriting any previous unconsumed one. -/
def handleClick (c : Coord) (s : State) : State :=
  { particles := s.particles, screenInput := some c }

/-- The per-particle map body of `animate` (`GlitterParticles.js` lines 87-94),
with `u` the value of this particle's `Math.random()` call:
`x + decay / 2 + 1 - Math.random() * 2`, `y + decay / 2 + gravity`,
`r - decay`, colour unchanged. -/
def updateParticle (cfg : Config) (u : ℚ) (p : Particle) : Particle :=
  { x := p.x + cfg.decay / 2 + 1 - u * 2
    y := p.y + cfg.decay / 2 + cfg.gravity
    r := p.r - cfg.decay
    c := p.c }

/-- The filter `particles.filter(particle => particle.r >= 0)`
(`GlitterParticles.js` line 86). -/
def survivors (ps : List Particle) : List Particle :=
  ps.filter fun p => 0 ≤ p.r

/-- The `.map` over the filtered particles, threading the random stream: the
particle at position `i` of the list consumes draw `rnd i`. -/
def moveAll (cfg : Config) (rnd : ℕ → ℚ) (i : ℕ) : List Particle → List Particle
  | [] => []
  | p :: ps => updateParticle cfg (rnd i) p :: moveAll cfg rnd (i + 1) ps

/-- The chain `particles.filter(...).map(...)` (`GlitterParticles.js` lines 85-94). -/
def moved (cfg : Config) (rnd : ℕ → ℚ) (ps : List Particle) : List Particle :=
  moveAll cfg rnd 0 (survivors ps)

/-- The colour triple built for a spawned particle
(`GlitterParticles.js` line 110): `rgbValue` called at offsets 0, 1/3, 2/3
for the R, G, B channels. -/
def mkColor (rgb : ℚ → ℤ) : Color :=
  { r := rgb 0, g := rgb (1/3), b := rgb (2/3) }

/-- The object pushed in the spawn loop (`GlitterParticles.js` lines 106-111),
with `ux`, `uy` the two `Math.random()` values drawn for it:
`screenInput.x - spread / 2 + Math.random() * spread`, same for y,
radius `size`, colour from `rgbValue`. -/
def spawnParticle (cfg : Config) (rgb : ℚ → ℤ) (inp : Coord) (ux uy : ℚ) : Particle :=
  { x := inp.x - cfg.spread / 2 + ux * cfg.spread
    y := inp.y - cfg.spread / 2 + uy * cfg.spread
    r := cfg.size
    c := mkColor rgb }

/-- The spawn loop `for (let i = 0; i < count; i++) nextParticles.push(...)`
(`GlitterParticles.js` lines 105-112).  `base` is the number of draws already
consumed by the map; spawned particle `j` draws `rnd (base + 2j)` for x and
`rnd (base + 2j + 1)` for y, in the source's evaluation order. -/
def burst (cfg : Config) (rgb : ℚ → ℤ) (inp : Coord) (rnd : ℕ → ℚ) (base : ℕ) :
    List Particle :=
  (List.range cfg.count).map fun j =>
    spawnParticle cfg rgb inp (rnd (base + 2 * j)) (rnd (base + 2 * j + 1))

/-- One tick: `animate` of `GlitterParticles.js` (lines 77-124).  Filter on the
current radius, map the update, then if an input is pending append `count`
spawned particles and clear the input. -/
def animate (cfg : Config) (rgb : ℚ → ℤ) (rnd : ℕ → ℚ) (s : State) : State :=
  let nextParticles := moved cfg rnd s.particles
  match s.screenInput with
  | some inp =>
      { particles := nextParticles ++ burst cfg rgb inp rnd nextParticles.length
        screenInput := none }
  | none => { particles := nextParticles, screenInput := none }

/-- Component state of `App.js`: `circles`, `screenClicked` and `mousePos`. -/
structure AppState where
  circles : List Particle
  screenClicked : Bool
  mousePos : Coord

/-- The `.map` body of `App.js` (lines 17-25), written out literally. -/
def appMoveAll (cfg : Config) (rnd : ℕ → ℚ) (i : ℕ) : List Particle → List Particle
  | [] => []
  | cir :: rest =>
      { x := cir.x + cfg.decay / 2 + 1 - rnd i * 2
        y := cir.y + cfg.decay / 2 + cfg.gravity
        r := cir.r - cfg.decay
        c := cir.c } :: appMoveAll cfg rnd (i + 1) rest

/-- One tick of `App.js`'s `animate` (lines 15-39): filter `cir.r >= 0`, map
the update, and if `screenClicked` push `count` circles spawned around
`mousePos` and reset the flag. -/
def appAnimate (cfg : Config) (rgb : ℚ → ℤ) (rnd : ℕ → ℚ) (s : AppState) : AppState :=
  let newCircles := appMoveAll cfg rnd 0 (s.circles.filter fun cir => 0 ≤ cir.r)
  if s.screenClicked then
    { circles := newCircles ++ (List.range cfg.count).map fun i =>
        { x := s.mousePos.x - cfg.spread / 2 + rnd (newCircles.length + 2 * i) * cfg.spread
          y := s.mousePos.y - cfg.spread / 2 + rnd (newCircles.length + 2 * i + 1) * cfg.spread
          r := cfg.size
          c := { r := rgb 0, g := rgb (1/3), b := rgb (2/3) } }
      screenClicked := false
      mousePos := s.mousePos }
  else
    { circles := newCircles, screenClicked := s.screenClicked, mousePos := s.mousePos }

/-- The `rgbValue` helper (`GlitterParticles.js` lines 49-72) at clock time `t` seconds:
`x = Math.abs(Math.sin(unixTime / 10 + unixTime * offset))` and
`Math.floor((y0 * (x1 - x) + y1 * (x - x0)) / (x1 - x0))` with
`y0 = 75, y1 = 230, x0 = 0, x1 = 1`. -/
noncomputable def rgbValue (t offset : ℝ) : ℤ :=
  let y0 : ℝ := 75
  let y1 : ℝ := 230
  let x0 : ℝ := 0
  let x1 : ℝ := 1
  let x : ℝ := |Real.sin (t / 10 + t * offset)|
  ⌊(y0 * (x1 - x) + y1 * (x - x0)) / (x1 - x0)⌋

/-- The delay expression handed to `useInterval`
(`GlitterParticles.js` line 151):
`particles.length > 0 || screenInput ? 66 : null`. -/
def glitterDelay (s : State) : Option ℕ :=
  if 0 < s.particles.length ∨ s.screenInput.isSome then some 66 else none

/-- The `useInterval` hook (`GlitterParticles.js` lines 197-234) installs the periodic
callback exactly when the delay is not null: `if (delay !== null) setInterval`. -/
def intervalActive (delay : Option ℕ) : Bool :=
  delay.isSome

/-- States reachable by the component from its initial render (`useState([])`,
no input): any interleaving of recorded clicks and timer ticks, each tick with
its own stream of random draws. -/
inductive Reachable (cfg : Config) (rgb : ℚ → ℤ) : State → Prop
  | init : Reachable cfg rgb { particles := [], screenInput := none }
  | click (c : Coord) {s : State} :
      Reachable cfg rgb s → Reachable cfg rgb (handleClick c s)
  | tick (rnd : ℕ → ℚ) {s : State} :
      Reachable cfg rgb s → Reachable cfg rgb (animate cfg rgb rnd s)

/-- The per-particle update as claim C5 words it (spec §4.1 step 1): position
advances on each axis by `decay/2 + 1 − U(0,2)` with a fresh draw per axis,
plus gravity on the y axis.  This follows the claim's words, for comparison
with `updateParticle`, which the code defines. -/
def updateParticleClaimC5 (cfg : Config) (ux uy : ℚ) (p : Particle) : Particle :=
  { x := p.x + cfg.decay / 2 + 1 - ux * 2
    y := p.y + cfg.decay / 2 + 1 - uy * 2 + cfg.gravity
    r := p.r - cfg.decay
    c := p.c }

/-- A constant colour closure, for concrete evaluations. -/
def rgbZero : ℚ → ℤ := fun _ => 0

/-- A constant random stream (every draw is 0), for concrete evaluations. -/
def rndZero : ℕ → ℚ := fun _ => 0

/-- The recommended settings of `src/index.js`:
count 8, size 16, gravity 3, spread 25, decay 0.25. -/
def cfgDemo : Config :=
  { count := 8, size := 16, gravity := 3, spread := 25, decay := 1/4 }

/-- A sample live particle. -/
def pDemo : Particle := { x := 0, y := 0, r := 16, c := { r := 100, g := 100, b := 100 } }

/-- A sample state holding one live particle and no pending input. -/
def sDemo : State := { particles := [pDemo], screenInput := none }

/-- A small configuration (count 1, size 0, gravity 0, spread 0, decay 1) used
to evaluate the loop at concrete inputs. -/
def cfgUnit : Config :=
  { count := 1, size := 0, gravity := 0, spread := 0, decay := 1 }

/-- The state after a click at the origin and two ticks, from the initial
state, under `cfgUnit`: the click is consumed by the first tick, which spawns
one particle of radius 0; the second tick keeps it (its current radius is 0)
and decrements its radius to -1. -/
def stateTwoTicks : State :=
  animate cfgUnit rgbZero rndZero
    (animate cfgUnit rgbZero rndZero
      (handleClick { x := 0, y := 0 } { particles := [], screenInput := none }))

/-- A particle used for the C5 counterexample. -/
def pC5 : Particle := { x := 0, y := 0, r := 1, c := { r := 0, g := 0, b := 0 } }

/-- A configuration with gravity 0 and decay 0, isolating the jitter term. -/
def cfgC5 : Config :=
  { count := 0, size := 0, gravity := 0, spread := 0, decay := 0 }

/-- A state holding only `pC5`, no pending input. -/
def sC5 : State := { particles := [pC5], screenInput := none }

/-- The empty collection with a pending click at the origin. -/
def sClick : State := { particles := [], screenInput := some { x := 0, y := 0 } }

/-- The colour triple built by the spawn loop for one particle, with each of
the three `rgbValue` calls reading its own clock value: in the source every
call re-reads `Date.now()`, so successive calls may see different times.
`clk n` is the time (in seconds) seen by the n-th `rgbValue` call of the tick;
a particle whose calls start at index `n` gets channels from calls `n`,
`n + 1`, `n + 2` at offsets 0, 1/3, 2/3. -/
noncomputable def mkColorAt (clk : ℕ → ℝ) (n : ℕ) : Color :=
  { r := rgbValue (clk n) 0
    g := rgbValue (clk (n + 1)) (1/3)
    b := rgbValue (clk (n + 2)) (2/3) }

/-- The spawn loop of `GlitterParticles.js` (lines 105-112) with per-call
clock reads: spawned particle `j` draws `rnd (base + 2j)` and
`rnd (base + 2j + 1)` for x and y, and makes the `rgbValue` calls
`3j`, `3j + 1`, `3j + 2` of the tick for its colour. -/
noncomputable def burstFresh (cfg : Config) (clk : ℕ → ℝ) (inp : Coord)
    (rnd : ℕ → ℚ) (base : ℕ) : List Particle :=
  (List.range cfg.count).map fun j =>
    { x := inp.x - cfg.spread / 2 + rnd (base + 2 * j) * cfg.spread
      y := inp.y - cfg.spread / 2 + rnd (base + 2 * j + 1) * cfg.spread
      r := cfg.size
      c := mkColorAt clk (3 * j) }

/-- One tick of `animate` (`GlitterParticles.js` lines 77-124) with the
wall-clock reads of the spawn loop's `rgbValue` calls made explicit as the
stream `clk`, instead of a tick-constant colour closure. -/
noncomputable def animateFresh (cfg : Config) (clk : ℕ → ℝ) (rnd : ℕ → ℚ)
    (s : State) : State :=
  let nextParticles := moved cfg rnd s.particles
  match s.screenInput with
  | some inp =>
      { particles := nextParticles ++ burstFresh cfg clk inp rnd nextParticles.length
        screenInput := none }
  | none => { particles := nextParticles, screenInput := none }

/-- A configuration spawning two particles per burst, with size, gravity,
spread and decay all 0. -/
def cfgTwo : Config :=
  { count := 2, size := 0, gravity := 0, spread := 0, decay := 0 }

/-- A clock stream on which the millisecond clock advances during the spawn
loop: the first particle's three `rgbValue` calls (indices 0, 1, 2) read time
0, the second particle's calls (indices 3, 4, 5) read time 5π. -/
noncomputable def clkC4 : ℕ → ℝ := fun n => if n < 3 then 0 else 5 * Real.pi

/-- The constant clock stream at time 0. -/
def clkZero : ℕ → ℝ := fun _ => 0

theorem mem_survivors {ps : List Particle} {p : Particle} :
    p ∈ survivors ps ↔ p ∈ ps ∧ 0 ≤ p.r := by
  simp [survivors]

theorem moveAll_length (cfg : Config) (rnd : ℕ → ℚ) (j : ℕ) (l : List Particle) :
    (moveAll cfg rnd j l).length = l.length := by
  induction l generalizing j with
  | nil => rfl
  | cons p ps ih => simp [moveAll, ih]

theorem moveAll_getD (cfg : Config) (rnd : ℕ → ℚ) (j : ℕ) (l : List Particle)
    (i : ℕ) (h : i < l.length) :
    (moveAll cfg rnd j l).getD i default
      = updateParticle cfg (rnd (j + i)) (l.getD i default) := by
  induction l generalizing j i with
  | nil => simp at h
  | cons p ps ih =>
      cases i with
      | zero => simp [moveAll]
      | succ i =>
          simp only [List.length_cons, Nat.succ_lt_succ_iff] at h
          simpa [moveAll, List.getD, Nat.add_assoc, Nat.add_comm 1 i] using ih (j + 1) i h

theorem mem_moveAll_of_mem (cfg : Config) (rnd : ℕ → ℚ) (j : ℕ) {l : List Particle}
    {p : Particle} (h : p ∈ l) :
    ∃ u, updateParticle cfg u p ∈ moveAll cfg rnd j l := by
  induction l generalizing j with
  | nil => simp at h
  | cons q qs ih =>
      rcases List.mem_cons.mp h with rfl | h
      · exact ⟨rnd j, by simp [moveAll]⟩
      · obtain ⟨u, hu⟩ := ih (j + 1) h
        exact ⟨u, by simp [moveAll, hu]⟩

theorem mem_moveAll (cfg : Config) (rnd : ℕ → ℚ) (j : ℕ) {l : List Particle}
    {q : Particle} (h : q ∈ moveAll cfg rnd j l) :
    ∃ p ∈ l, ∃ u, q = updateParticle cfg u p := by
  induction l generalizing j with
  | nil => simp [moveAll] at h
  | cons p ps ih =>
      rcases List.mem_cons.mp h with rfl | h
      · exact ⟨p, List.mem_cons_self p ps, rnd j, rfl⟩
      · obtain ⟨p', hp', u, hu⟩ := ih (j + 1) h
        exact ⟨p', List.mem_cons_of_mem _ hp', u, hu⟩

theorem burst_length (cfg : Config) (rgb : ℚ → ℤ) (inp : Coord) (rnd : ℕ → ℚ)
    (base : ℕ) : (burst cfg rgb inp rnd base).length = cfg.count := by
  simp [burst]

theorem mem_burst {cfg : Config} {rgb : ℚ → ℤ} {inp : Coord} {rnd : ℕ → ℚ}
    {base : ℕ} {q : Particle} (h : q ∈ burst cfg rgb inp rnd base) :
    ∃ j < cfg.count,
      q = spawnParticle cfg rgb inp (rnd (base + 2 * j)) (rnd (base + 2 * j + 1)) := by
  simp only [burst, List.mem_map, List.mem_range] at h
  obtain ⟨j, hj, rfl⟩ := h
  exact ⟨j, hj, rfl⟩

theorem animate_particles_some {cfg : Config} {rgb : ℚ → ℤ} {rnd : ℕ → ℚ}
    {s : State} {inp : Coord} (h : s.screenInput = some inp) :
    (animate cfg rgb rnd s).particles
      = moved cfg rnd s.particles
        ++ burst cfg rgb inp rnd (moved cfg rnd s.particles).length := by
  simp [animate, h]

theorem animate_particles_none {cfg : Config} {rgb : ℚ → ℤ} {rnd : ℕ → ℚ}
    {s : State} (h : s.screenInput = none) :
    (animate cfg rgb rnd s).particles = moved cfg rnd s.particles := by
  simp [animate, h]

theorem animate_screenInput (cfg : Config) (rgb : ℚ → ℤ) (rnd : ℕ → ℚ)
    (s : State) : (animate cfg rgb rnd s).screenInput = none := by
  cases h : s.screenInput <;> simp [animate, h]

theorem getD_zero_mem {l : List Particle} (h : l ≠ []) : l.getD 0 default ∈ l := by
  cases l with
  | nil => exact absurd rfl h
  | cons a t => simp [List.getD]

/-- C1: on every tick, survival is decided by the filter `r >= 0` applied to
the current (pre-update) radius, before the update.  First conjunct: every
particle whose current radius is ≥ 0 — in particular one whose radius reaches
exactly 0 this tick, i.e. with current radius equal to `decay` — yields an
updated particle (radius decremented by `decay`, possibly negative) in the
resulting collection.  Second conjunct: the resulting collection counts
exactly the particles with current radius ≥ 0 plus the burst, so a particle
whose current radius is below 0 contributes nothing to it. -/
theorem c1_filter_before_update (cfg : Config) (rgb : ℚ → ℤ) (rnd : ℕ → ℚ)
    (s : State) :
    (∀ p ∈ s.particles, 0 ≤ p.r →
      ∃ q ∈ (animate cfg rgb rnd s).particles,
        q.r = p.r - cfg.decay ∧ q.c = p.c ∧
        q.y = p.y + cfg.decay / 2 + cfg.gravity) ∧
    (animate cfg rgb rnd s).particles.length
      = (s.particles.filter fun p => 0 ≤ p.r).length
        + (if s.screenInput.isSome then cfg.count else 0) := by
  constructor
  · intro p hp hr
    obtain ⟨u, hu⟩ := mem_moveAll_of_mem cfg rnd 0 (mem_survivors.mpr ⟨hp, hr⟩)
    have hmem : updateParticle cfg u p ∈ (animate cfg rgb rnd s).particles := by
      cases h : s.screenInput with
      | none => rw [animate_particles_none h]; exact hu
      | some inp => rw [animate_particles_some h]; exact List.mem_append_left _ hu
    exact ⟨updateParticle cfg u p, hmem, by simp [updateParticle], by
      simp [updateParticle], by simp [updateParticle]⟩
  · cases h : s.screenInput with
    | none =>
        rw [animate_particles_none h]
        simp [moved, moveAll_length, survivors, h]
    | some inp =>
        rw [animate_particles_some h]
        simp [moved, moveAll_length, burst_length, survivors, h]

/-- C1 witness: applied to the demo state holding one particle of radius 16. -/
theorem c1_witness :
    ∃ q ∈ (animate cfgDemo rgbZero rndZero sDemo).particles,
      q.r = pDemo.r - cfgDemo.decay ∧ q.c = pDemo.c ∧
      q.y = pDemo.y + cfgDemo.decay / 2 + cfgDemo.gravity :=
  (c1_filter_before_update cfgDemo rgbZero rndZero sDemo).1 pDemo
    (by simp [sDemo]) (by norm_num [pDemo])

/-- C2: for every particle that survives a tick (position `i` of the filtered
list), its radius after the tick equals its radius before the tick minus
`decay`; hence it strictly decreases when `decay > 0` and is non-increasing
when `decay ≥ 0` — so per particle, radius is monotonically non-increasing
across ticks. -/
theorem c2_radius_decrement (cfg : Config) (rnd : ℕ → ℚ) (ps : List Particle)
    (i : ℕ) (h : i < (survivors ps).length) :
    ((moved cfg rnd ps).getD i default).r
      = ((survivors ps).getD i default).r - cfg.decay ∧
    (0 ≤ cfg.decay →
      ((moved cfg rnd ps).getD i default).r ≤ ((survivors ps).getD i default).r) ∧
    (0 < cfg.decay →
      ((moved cfg rnd ps).getD i default).r < ((survivors ps).getD i default).r) := by
  have hg : (moved cfg rnd ps).getD i default
      = updateParticle cfg (rnd (0 + i)) ((survivors ps).getD i default) :=
    moveAll_getD cfg rnd 0 (survivors ps) i h
  rw [hg]
  refine ⟨by simp [updateParticle], ?_, ?_⟩ <;>
    · intro hd
      simp only [updateParticle]
      linarith

/-- C2 witness: the demo particle of radius 16 under decay 0.25. -/
theorem c2_witness :
    ((moved cfgDemo rndZero [pDemo]).getD 0 default).r
      = ((survivors [pDemo]).getD 0 default).r - cfgDemo.decay :=
  (c2_radius_decrement cfgDemo rndZero [pDemo] 0 (by decide)).1

/-- C3: each pending input is consumed at most once.  A later click overwrites
an earlier unconsumed one (first conjunct); the tick after a recorded click
appends exactly `count` particles to the updated survivors (second conjunct)
and clears the pending input (third conjunct); and a tick with no pending
input appends nothing and leaves no pending input (fourth conjunct) — so the
tick after the consuming one produces no second burst. -/
theorem c3_input_consumed_once (cfg : Config) (rgb : ℚ → ℤ) (rnd : ℕ → ℚ)
    (s : State) (a b : Coord) :
    handleClick b (handleClick a s) = handleClick b s ∧
    (animate cfg rgb rnd (handleClick b s)).particles.length
      = (s.particles.filter fun p => 0 ≤ p.r).length + cfg.count ∧
    (animate cfg rgb rnd (handleClick b s)).screenInput = none ∧
    (∀ s2 : State, s2.screenInput = none →
      (animate cfg rgb rnd s2).particles.length
        = (s2.particles.filter fun p => 0 ≤ p.r).length ∧
      (animate cfg rgb rnd s2).screenInput = none) := by
  refine ⟨rfl, ?_, animate_screenInput cfg rgb rnd _, ?_⟩
  · rw [animate_particles_some (show (handleClick b s).screenInput = some b from rfl)]
    simp [moved, moveAll_length, burst_length, survivors, handleClick]
  · intro s2 h2
    refine ⟨?_, animate_screenInput cfg rgb rnd s2⟩
    rw [animate_particles_none h2]
    simp [moved, moveAll_length, survivors]

/-- C3 witness: a tick on a state with no pending input, from the theorem's
last conjunct at the empty state. -/
theorem c3_witness :
    (animate cfgDemo rgbZero rndZero { particles := [], screenInput := none }).particles.length
      = ((({ particles := [], screenInput := none } : State)).particles.filter
          fun p => 0 ≤ p.r).length ∧
    (animate cfgDemo rgbZero rndZero { particles := [], screenInput := none }).screenInput
      = none :=
  (c3_input_consumed_once cfgDemo rgbZero rndZero
      { particles := [], screenInput := none } { x := 0, y := 0 } { x := 1, y := 1 }).2.2.2
    { particles := [], screenInput := none } rfl

theorem animateFresh_particles_some {cfg : Config} {clk : ℕ → ℝ} {rnd : ℕ → ℚ}
    {s : State} {inp : Coord} (h : s.screenInput = some inp) :
    (animateFresh cfg clk rnd s).particles
      = moved cfg rnd s.particles
        ++ burstFresh cfg clk inp rnd (moved cfg rnd s.particles).length := by
  simp [animateFresh, h]

theorem burstFresh_length (cfg : Config) (clk : ℕ → ℝ) (inp : Coord)
    (rnd : ℕ → ℚ) (base : ℕ) : (burstFresh cfg clk inp rnd base).length = cfg.count := by
  simp [burstFresh]

theorem mem_burstFresh {cfg : Config} {clk : ℕ → ℝ} {inp : Coord} {rnd : ℕ → ℚ}
    {base : ℕ} {q : Particle} (h : q ∈ burstFresh cfg clk inp rnd base) :
    ∃ j < cfg.count,
      q = { x := inp.x - cfg.spread / 2 + rnd (base + 2 * j) * cfg.spread
            y := inp.y - cfg.spread / 2 + rnd (base + 2 * j + 1) * cfg.spread
            r := cfg.size
            c := mkColorAt clk (3 * j) } := by
  simp only [burstFresh, List.mem_map, List.mem_range] at h
  obtain ⟨j, hj, rfl⟩ := h
  exact ⟨j, hj, rfl⟩

theorem burstFresh_eq_burst (cfg : Config) (clk : ℕ → ℝ) (t : ℝ) (inp : Coord)
    (rnd : ℕ → ℚ) (base : ℕ) (hclk : ∀ n, clk n = t) :
    burstFresh cfg clk inp rnd base
      = burst cfg (fun q => rgbValue t (q : ℝ)) inp rnd base := by
  have hf : (fun j =>
        ({ x := inp.x - cfg.spread / 2 + rnd (base + 2 * j) * cfg.spread
           y := inp.y - cfg.spread / 2 + rnd (base + 2 * j + 1) * cfg.spread
           r := cfg.size
           c := mkColorAt clk (3 * j) } : Particle))
      = fun j => spawnParticle cfg (fun q => rgbValue t (q : ℝ)) inp
          (rnd (base + 2 * j)) (rnd (base + 2 * j + 1)) := by
    funext j
    simp only [spawnParticle, mkColorAt, mkColor, hclk]
    norm_num
  simp only [burstFresh, burst, hf]

theorem rgbValue_at_zero : rgbValue 0 0 = 75 := by
  simp only [rgbValue]
  norm_num

theorem rgbValue_at_five_pi : rgbValue (5 * Real.pi) 0 = 230 := by
  simp only [rgbValue]
  rw [show (5 * Real.pi / 10 + 5 * Real.pi * 0) = Real.pi / 2 by ring,
    Real.sin_pi_div_two]
  norm_num

/-- C4 counterexample: the source evaluates `rgbValue` three times per
particle — `3 * count` times per burst — and every call re-reads the clock, so
identical colours across a burst are not guaranteed.  Concretely: a click at
the origin consumed from the empty state with burst size 2, on a tick during
which the clock advances from 0 (the first particle's three calls) to 5π (the
second particle's calls), spawns a first particle with red channel
`rgbValue 0 0 = 75` and a second with red channel `rgbValue (5π) 0 = 230`:
the two particles of one burst carry different colour triples. -/
theorem c4_counterexample :
    ((animateFresh cfgTwo clkC4 rndZero sClick).particles.getD 0 default).c
      ≠ ((animateFresh cfgTwo clkC4 rndZero sClick).particles.getD 1 default).c := by
  have hp : (animateFresh cfgTwo clkC4 rndZero sClick).particles
      = burstFresh cfgTwo clkC4 { x := 0, y := 0 } rndZero 0 := by
    simp [animateFresh, sClick, moved, survivors, moveAll]
  have hr : (((animateFresh cfgTwo clkC4 rndZero sClick).particles.getD 0 default).c).r
      = 75 ∧
      (((animateFresh cfgTwo clkC4 rndZero sClick).particles.getD 1 default).c).r
      = 230 := by
    rw [hp]
    constructor <;>
      · simp [burstFresh, cfgTwo, List.range_succ, mkColorAt, clkC4, List.getD]
        simp [rgbValue_at_zero, rgbValue_at_five_pi]
  intro hceq
  rw [congrArg Color.r hceq, hr.2] at hr
  exact absurd hr.1 (by norm_num)

/-- C4 as amended: each spawned particle's colour comes from three `rgbValue`
calls at the fixed offsets 0, 1/3, 2/3 for its R, G, B channels, each call
reading the clock afresh; when all the clock readings made during the burst
coincide (value `t`), the burst numbers exactly `count` particles, every one
carries the same triple `(rgbValue t 0, rgbValue t (1/3), rgbValue t (2/3))`,
and so any two particles of the burst have identical colours. -/
theorem c4_amended_burst_colors (cfg : Config) (clk : ℕ → ℝ) (rnd : ℕ → ℚ)
    (s : State) (inp : Coord) (t : ℝ) (h : s.screenInput = some inp)
    (hclk : ∀ n, clk n = t) :
    ((animateFresh cfg clk rnd s).particles.drop (moved cfg rnd s.particles).length).length
      = cfg.count ∧
    (∀ q ∈ (animateFresh cfg clk rnd s).particles.drop (moved cfg rnd s.particles).length,
      q.c = { r := rgbValue t 0, g := rgbValue t (1/3), b := rgbValue t (2/3) }) ∧
    (∀ q ∈ (animateFresh cfg clk rnd s).particles.drop (moved cfg rnd s.particles).length,
      ∀ q2 ∈ (animateFresh cfg clk rnd s).particles.drop (moved cfg rnd s.particles).length,
        q.c = q2.c) := by
  have hd : (animateFresh cfg clk rnd s).particles.drop (moved cfg rnd s.particles).length
      = burstFresh cfg clk inp rnd (moved cfg rnd s.particles).length := by
    rw [animateFresh_particles_some h, List.drop_left]
  have hcol : ∀ q ∈ (animateFresh cfg clk rnd s).particles.drop
      (moved cfg rnd s.particles).length,
      q.c = { r := rgbValue t 0, g := rgbValue t (1/3), b := rgbValue t (2/3) } := by
    intro q hq
    rw [hd] at hq
    obtain ⟨j, hj, rfl⟩ := mem_burstFresh hq
    simp [mkColorAt, hclk]
  refine ⟨by rw [hd, burstFresh_length], hcol, ?_⟩
  intro q hq q2 hq2
  rw [hcol q hq, hcol q2 hq2]

/-- C4 witness for the amended claim: a click at the origin consumed from the
empty state under the demo configuration, on a tick whose clock readings all
coincide at time 0, yields a burst of `count` particles. -/
theorem c4_amended_witness :
    ((animateFresh cfgDemo clkZero rndZero sClick).particles.drop
      (moved cfgDemo rndZero sClick.particles).length).length = cfgDemo.count :=
  (c4_amended_burst_colors cfgDemo clkZero rndZero sClick { x := 0, y := 0 } 0
    rfl (fun _ => rfl)).1

/-- C5 counterexample: the claim says the y coordinate of a surviving particle
advances by `decay/2 + 1 − U(0,2)` (fresh draw) plus gravity, as
`updateParticleClaimC5` words it; but on the tick of `sC5` (one particle at
the origin, gravity 0, decay 0, all draws 0) the code leaves y at 0 while the
claim's formula yields 1. -/
theorem c5_counterexample :
    ((animate cfgC5 rgbZero rndZero sC5).particles.getD 0 default).y
      ≠ (updateParticleClaimC5 cfgC5 (rndZero 0) (rndZero 1) pC5).y := by
  rw [animate_particles_none rfl]
  norm_num [moved, survivors, moveAll, updateParticle, updateParticleClaimC5, cfgC5,
    pC5, rndZero, List.getD]

/-- C5 as amended: on every tick, the surviving particle at position `i` of
the filtered list advances its x coordinate by `decay/2 + 1 − U(0,2)` (a fresh
draw per particle, consumed for the x axis only) while its y coordinate
advances deterministically by `decay/2` plus the gravity term, with no random
draw on the y axis. -/
theorem c5_amended_drift (cfg : Config) (rnd : ℕ → ℚ) (ps : List Particle)
    (i : ℕ) (h : i < (survivors ps).length) :
    ((moved cfg rnd ps).getD i default).x
      = ((survivors ps).getD i default).x + cfg.decay / 2 + 1 - rnd i * 2 ∧
    ((moved cfg rnd ps).getD i default).y
      = ((survivors ps).getD i default).y + cfg.decay / 2 + cfg.gravity := by
  have hg : (moved cfg rnd ps).getD i default
      = updateParticle cfg (rnd (0 + i)) ((survivors ps).getD i default) :=
    moveAll_getD cfg rnd 0 (survivors ps) i h
  rw [hg]
  constructor <;> simp [updateParticle]

/-- C5 witness: the demo particle under the demo configuration. -/
theorem c5_witness :
    ((moved cfgDemo rndZero [pDemo]).getD 0 default).x
      = ((survivors [pDemo]).getD 0 default).x + cfgDemo.decay / 2 + 1 - rndZero 0 * 2 ∧
    ((moved cfgDemo rndZero [pDemo]).getD 0 default).y
      = ((survivors [pDemo]).getD 0 default).y + cfgDemo.decay / 2 + cfgDemo.gravity :=
  c5_amended_drift cfgDemo rndZero [pDemo] 0 (by decide)

/-- C6: when an input at `inp` is consumed, and the random draws lie in [0,1]
and `spread ≥ 0`, every particle of the burst lies within `spread/2` of `inp`
on each axis, its offset on each axis being `u * spread − spread/2` for a draw
`u` in [0,1] — i.e. `U(0, spread) − spread/2`. -/
theorem c6_spawn_spread (cfg : Config) (rgb : ℚ → ℤ) (rnd : ℕ → ℚ)
    (s : State) (inp : Coord) (h : s.screenInput = some inp)
    (hs : 0 ≤ cfg.spread) (hr : ∀ n, 0 ≤ rnd n ∧ rnd n ≤ 1) :
    ∀ q ∈ (animate cfg rgb rnd s).particles.drop (moved cfg rnd s.particles).length,
      |q.x - inp.x| ≤ cfg.spread / 2 ∧ |q.y - inp.y| ≤ cfg.spread / 2 ∧
      (∃ u, 0 ≤ u ∧ u ≤ 1 ∧ q.x = inp.x - cfg.spread / 2 + u * cfg.spread) ∧
      (∃ v, 0 ≤ v ∧ v ≤ 1 ∧ q.y = inp.y - cfg.spread / 2 + v * cfg.spread) := by
  intro q hq
  rw [animate_particles_some h, List.drop_left] at hq
  obtain ⟨j, hj, rfl⟩ := mem_burst hq
  set a := (moved cfg rnd s.particles).length + 2 * j with ha
  have hxu := hr a
  have hyu := hr (a + 1)
  have hbound : ∀ u : ℚ, 0 ≤ u → u ≤ 1 → |u * cfg.spread - cfg.spread / 2| ≤ cfg.spread / 2 := by
    intro u h0 h1
    rw [abs_le]
    constructor <;> nlinarith
  refine ⟨?_, ?_, ⟨rnd a, hxu.1, hxu.2, by simp [spawnParticle]⟩,
    ⟨rnd (a + 1), hyu.1, hyu.2, by simp [spawnParticle]⟩⟩
  · have : (spawnParticle cfg rgb inp (rnd a) (rnd (a + 1))).x - inp.x
        = rnd a * cfg.spread - cfg.spread / 2 := by
      simp [spawnParticle]; ring
    rw [this]
    exact hbound _ hxu.1 hxu.2
  · have : (spawnParticle cfg rgb inp (rnd a) (rnd (a + 1))).y - inp.y
        = rnd (a + 1) * cfg.spread - cfg.spread / 2 := by
      simp [spawnParticle]; ring
    rw [this]
    exact hbound _ hyu.1 hyu.2

/-- C6 witness: the first particle of the burst of a click at the origin from
the empty state, under the demo configuration and the all-zero draw stream. -/
theorem c6_witness :
    |((animate cfgDemo rgbZero rndZero sClick).particles.getD 0 default).x
        - ({ x := 0, y := 0 } : Coord).x| ≤ cfgDemo.spread / 2 ∧
    |((animate cfgDemo rgbZero rndZero sClick).particles.getD 0 default).y
        - ({ x := 0, y := 0 } : Coord).y| ≤ cfgDemo.spread / 2 ∧
    (∃ u, 0 ≤ u ∧ u ≤ 1 ∧
      ((animate cfgDemo rgbZero rndZero sClick).particles.getD 0 default).x
        = ({ x := 0, y := 0 } : Coord).x - cfgDemo.spread / 2 + u * cfgDemo.spread) ∧
    (∃ v, 0 ≤ v ∧ v ≤ 1 ∧
      ((animate cfgDemo rgbZero rndZero sClick).particles.getD 0 default).y
        = ({ x := 0, y := 0 } : Coord).y - cfgDemo.spread / 2 + v * cfgDemo.spread) :=
  c6_spawn_spread cfgDemo rgbZero rndZero sClick { x := 0, y := 0 } rfl
    (by norm_num [cfgDemo]) (fun n => by norm_num [rndZero])
    ((animate cfgDemo rgbZero rndZero sClick).particles.getD 0 default) (by
      have h0 : (moved cfgDemo rndZero sClick.particles).length = 0 := rfl
      rw [h0, List.drop_zero]
      refine getD_zero_mem ?_
      rw [animate_particles_some rfl]
      simp [List.append_eq_nil, burst, cfgDemo])

/-- C7: for every finite time `t` and offset, `rgbValue` returns an integer in
[75, 230]: it is the floor of the linear interpolation between 75 and 230 with
parameter `x = |sin(t/10 + t*offset)| ∈ [0, 1]`. -/
theorem c7_rgbValue_range (t offset : ℝ) :
    75 ≤ rgbValue t offset ∧ rgbValue t offset ≤ 230 := by
  have hx0 : (0:ℝ) ≤ |Real.sin (t / 10 + t * offset)| := abs_nonneg _
  have hx1 : |Real.sin (t / 10 + t * offset)| ≤ 1 :=
    abs_le.mpr ⟨Real.neg_one_le_sin _, Real.sin_le_one _⟩
  simp only [rgbValue]
  constructor
  · refine Int.le_floor.mpr ?_
    push_cast
    nlinarith
  · have hlt : ((75:ℝ) * (1 - |Real.sin (t / 10 + t * offset)|)
        + 230 * (|Real.sin (t / 10 + t * offset)| - 0)) / (1 - 0) < 231 := by
      nlinarith
    have hfl : ⌊((75:ℝ) * (1 - |Real.sin (t / 10 + t * offset)|)
        + 230 * (|Real.sin (t / 10 + t * offset)| - 0)) / (1 - 0)⌋ < 231 :=
      Int.floor_lt.mpr (by push_cast; exact hlt)
    omega

theorem stateTwoTicks_particles :
    stateTwoTicks.particles
      = [{ x := 3/2, y := 1/2, r := -1, c := { r := 0, g := 0, b := 0 } }] := by
  norm_num [stateTwoTicks, animate, handleClick, moved, survivors, moveAll, burst,
    spawnParticle, mkColor, updateParticle, cfgUnit, rgbZero, rndZero,
    List.range_succ]

/-- C8 counterexample: the state reached from the initial state by a click at
the origin and two ticks (under count 1, size 0, gravity 0, spread 0, decay 1
and all-zero draws) exposes a particle of radius -1 to the rendering layer:
the collection CAN contain a particle with radius < 0. -/
theorem c8_counterexample :
    Reachable cfgUnit rgbZero stateTwoTicks ∧
    ∃ p ∈ stateTwoTicks.particles, p.r < 0 := by
  refine ⟨Reachable.tick rndZero (Reachable.tick rndZero
    (Reachable.click { x := 0, y := 0 } Reachable.init)), ?_⟩
  rw [stateTwoTicks_particles]
  exact ⟨{ x := 3/2, y := 1/2, r := -1, c := { r := 0, g := 0, b := 0 } },
    by simp, by norm_num⟩

/-- C8 as amended: with nonnegative size and decay, every particle in every
reachable exposed collection has radius ≥ -decay.  A particle with negative
radius (necessarily in [-decay, 0)) can be exposed for one tick before the
next tick's filter drops it; it is not true that the exposed collection never
contains a particle of negative radius. -/
theorem c8_amended_invariant (cfg : Config) (rgb : ℚ → ℤ)
    (hsize : 0 ≤ cfg.size) (hdecay : 0 ≤ cfg.decay) {s : State}
    (hr : Reachable cfg rgb s) : ∀ p ∈ s.particles, -cfg.decay ≤ p.r := by
  induction hr with
  | init => intro p hp; simp at hp
  | click c hr ih =>
      intro p hp
      simp only [handleClick] at hp
      exact ih p hp
  | tick rnd hr ih =>
      rename_i s2
      intro p hp
      have hmoved : ∀ q ∈ moved cfg rnd s2.particles, -cfg.decay ≤ q.r := by
        intro q hq
        obtain ⟨p2, hp2, u, rfl⟩ := mem_moveAll cfg rnd 0 hq
        have h0 : 0 ≤ p2.r := (mem_survivors.mp hp2).2
        simp only [updateParticle]
        linarith
      cases h : s2.screenInput with
      | none =>
          rw [animate_particles_none h] at hp
          exact hmoved p hp
      | some inp =>
          rw [animate_particles_some h] at hp
          rcases List.mem_append.mp hp with hp | hp
          · exact hmoved p hp
          · obtain ⟨j, hj, rfl⟩ := mem_burst hp
            simp only [spawnParticle]
            linarith

/-- C8 witness for the amended invariant: the particle exposed after a click
and two ticks has radius ≥ -decay. -/
theorem c8_witness :
    -cfgUnit.decay ≤ (stateTwoTicks.particles.getD 0 default).r := by
  have hre : Reachable cfgUnit rgbZero stateTwoTicks :=
    Reachable.tick rndZero (Reachable.tick rndZero
      (Reachable.click { x := 0, y := 0 } Reachable.init))
  have hne : stateTwoTicks.particles ≠ [] := by
    rw [stateTwoTicks_particles]; simp
  exact c8_amended_invariant cfgUnit rgbZero (by norm_num [cfgUnit])
    (by norm_num [cfgUnit]) hre _ (getD_zero_mem hne)

/-- C9: the periodic tick of `GlitterOverlay` is scheduled exactly when there
is a live particle or a pending input: the interval delay is absent precisely
when the collection is empty and no input is pending, and recording an input
makes the interval active again. -/
theorem c9_scheduling (s : State) (c : Coord) :
    (intervalActive (glitterDelay s) = true ↔
      s.particles ≠ [] ∨ s.screenInput ≠ none) ∧
    (glitterDelay s = none ↔ s.particles = [] ∧ s.screenInput = none) ∧
    intervalActive (glitterDelay (handleClick c s)) = true := by
  obtain ⟨ps, inp⟩ := s
  refine ⟨?_, ?_, ?_⟩
  · cases ps <;> cases inp <;> simp [intervalActive, glitterDelay]
  · cases ps <;> cases inp <;> simp [intervalActive, glitterDelay]
  · cases inp <;> simp [intervalActive, glitterDelay, handleClick]

theorem appMoveAll_eq (cfg : Config) (rnd : ℕ → ℚ) (i : ℕ) (l : List Particle) :
    appMoveAll cfg rnd i l = moveAll cfg rnd i l := by
  induction l generalizing i with
  | nil => rfl
  | cons a t ih => simp [appMoveAll, moveAll, updateParticle, ih]

/-- C10: given the same configuration, particle collection, pending input and
random draws, the `animate` of `App.js` and the `animate` of
`GlitterParticles.js` produce identical next particle collections (the
pending input of `App.js` is its `screenClicked`/`mousePos` pair, which
corresponds to `some mousePos` exactly when the flag is set). -/
theorem c10_app_equiv (cfg : Config) (rgb : ℚ → ℤ) (rnd : ℕ → ℚ)
    (cs : List Particle) (clicked : Bool) (pos : Coord) :
    (appAnimate cfg rgb rnd
        { circles := cs, screenClicked := clicked, mousePos := pos }).circles
      = (animate cfg rgb rnd
          { particles := cs,
            screenInput := if clicked then some pos else none }).particles := by
  cases clicked with
  | false => simp [appAnimate, animate, moved, appMoveAll_eq, survivors]
  | true =>
      simp [appAnimate, animate, moved, appMoveAll_eq, survivors, burst,
        spawnParticle, mkColor]

end Glitter
